import Mathlib

/-!
# Verification of the fitness-helper RAG pipeline (`src/backend/src/aiService.ts`)

Shallow embedding of the RAG orchestration code: embedding-response
normalization (`embedDocuments`), document text extraction and batch update
(`updateEmbeddings`), persistence of embeddings (`saveEmbeddingsToDB`),
soft-fail lookups (`fetchUserGoal`, `fetchRagContext`) and the end-to-end
completion call (`ragCall`).

External effects (Supabase queries, HTTP calls) are modelled as explicit
oracle values/functions passed in; JavaScript truthiness on string fields
(`doc.title || doc.name || ''`) is modelled by `jsOr` on `Option String`,
where `none` stands for `undefined`/`null` and `some ""` for the empty
string (both falsy).
-/

namespace FitnessHelper

/-- JS truthiness for an optional string field: `undefined`, `null` and `""`
are falsy, every other string is truthy. -/
def truthy : Option String → Bool
  | none => false
  | some s => s ≠ ""

/-- Model of JS `a || b` on an optional string `a` with string default `b` (JS `||`). -/
def jsOr (a : Option String) (b : String) : String :=
  match a with
  | none => b
  | some s => if s = "" then b else s

/-- JS `Array.prototype.join(sep)` on a list of strings. -/
def joinSep (sep : String) : List String → String
  | [] => ""
  | [s] => s
  | s :: rest => s ++ sep ++ joinSep sep rest

/-! ## Hugging Face feature-extraction responses (`HuggingFaceLangChainEmbeddings`) -/

/-- A JSON value returned by the feature-extraction endpoint, as far as the
client inspects it: a number, an array, or anything else (object/string/...). -/
inductive HFValue where
  | num (x : Int)
  | arr (l : List HFValue)
  | other

/-- One level of `Array.prototype.flat()`: array elements are spliced in,
non-array elements are kept. -/
def flat1 : List HFValue → List HFValue
  | [] => []
  | HFValue.arr l :: rest => l ++ flat1 rest
  | v :: rest => v :: flat1 rest

/-- Whether a JSON value is an array (`Array.isArray`). -/
def isArr : HFValue → Bool
  | HFValue.arr _ => true
  | _ => false

/-- Normalization of one feature-extraction response, from the body of
`embedDocuments`: non-arrays are rejected
(`throw new Error('HF API response is not an array')`); if the first element
is itself an array the whole structure is flattened one level
(`res.flat()`), otherwise the response is used as-is. -/
def normalizeResponse : HFValue → Except String (List HFValue)
  | HFValue.arr l =>
      match l with
      | HFValue.arr _ :: _ => .ok (flat1 l)
      | _ => .ok l
  | _ => .error "HF API response is not an array"

/-- Model of `embedDocuments`: sequentially normalizes the remote response for each
input text; the first failure aborts the whole batch with no partial
results. The remote call is the oracle `api : String → HFValue`. -/
def embedDocuments (api : String → HFValue) : List String → Except String (List (List HFValue))
  | [] => .ok []
  | doc :: rest =>
      match normalizeResponse (api doc) with
      | .error e => .error e
      | .ok e =>
          match embedDocuments api rest with
          | .error e2 => .error e2
          | .ok es => .ok (e :: es)

/-- Model of `embedQuery`: `embedDocuments` of a singleton list, returning its sole
result (`(await this.embedDocuments([document]))[0]`). -/
def embedQuery (api : String → HFValue) (document : String) : Except String (List HFValue) :=
  (embedDocuments api [document]).map fun l => l.headD []

/-! ## Documents and text extraction (`updateEmbeddings`) -/

/-- A source document (`Document` plus the fields the pipeline reads).
Optional fields model JS properties that may be `undefined`. `extra` stands
for any further fields carried through the object spread untouched. -/
structure Document where
  id : String
  is_embedded : Bool
  title : Option String
  name : Option String
  description : Option String
  content : Option String
  notes : Option String
  plan_text : Option String
  type : Option String
  timestamp : Option String
  generated_at : Option String
  embedding : Option (List HFValue)
  extra : List (String × String)

/-- The text handed to the embedder for one document, from the `texts` map in
`updateEmbeddings`: `[doc.title || doc.name || '', doc.description || '',
doc.content || doc.notes || ''].filter(Boolean).join(' ')`, then
`textParts || 'No content'`. -/
def extractText (doc : Document) : String :=
  let parts := [jsOr doc.title (jsOr doc.name ""),
                jsOr doc.description "",
                jsOr doc.content (jsOr doc.notes "")]
  let textParts := joinSep " " (parts.filter (fun s => s ≠ ""))
  if textParts = "" then "No content" else textParts

/-- Model of `updateEmbeddings`: extract all texts, embed them in one batch, and
return the documents with `embedding` attached and `is_embedded` forced
`true` (`{ ...doc, embedding: embeddings[idx], is_embedded: true }`). -/
def updateEmbeddings (api : String → HFValue) (documents : List Document) :
    Except String (List Document) :=
  match embedDocuments api (documents.map extractText) with
  | .error e => .error e
  | .ok embeddings =>
      .ok (documents.zipWith
        (fun doc e => { doc with embedding := some e, is_embedded := true }) embeddings)

/-! ## Persistence (`saveEmbeddingsToDB`) -/

/-- Metadata of a persisted vector record: `{source_id, generated_at}` for
plans, `{source_id, entry_type, timestamp}` for entries. -/
inductive VMeta where
  | planMeta (source_id : String) (generated_at : Option String)
  | entryMeta (source_id : String) (entry_type : Option String) (timestamp : Option String)
  deriving DecidableEq, Repr

/-- The source-document id a metadata object points back to. -/
def VMeta.source_id : VMeta → String
  | planMeta sid _ => sid
  | entryMeta sid _ _ => sid

/-- A row inserted into the `ai_docs` store. -/
structure VectorRecord where
  user_id : String
  type : Option String
  content : Option String
  vector : Option (List HFValue)
  embedding_model : String
  metadata : VMeta

/-- The `ai_docs` row inserted for a plan document. -/
def planRecord (userId : String) (plan : Document) : VectorRecord :=
  { user_id := userId
    type := some "plan"
    content := plan.plan_text
    vector := plan.embedding
    embedding_model := "sentence-transformers/all-mpnet-base-v2"
    metadata := VMeta.planMeta plan.id plan.generated_at }

/-- The `ai_docs` row inserted for an entry document. -/
def entryRecord (userId : String) (entry : Document) : VectorRecord :=
  { user_id := userId
    type := entry.type
    content := entry.content
    vector := entry.embedding
    embedding_model := "sentence-transformers/all-mpnet-base-v2"
    metadata := VMeta.entryMeta entry.id entry.type entry.timestamp }

/-- The plans partition of `saveEmbeddingsToDB`:
`updatedDocs.filter((doc) => doc.plan_text)`. -/
def planDocs (updatedDocs : List Document) : List Document :=
  updatedDocs.filter (fun doc => truthy doc.plan_text)

/-- The entries partition of `saveEmbeddingsToDB`:
`updatedDocs.filter((doc) => doc.content && !doc.plan_text)`. -/
def entryDocs (updatedDocs : List Document) : List Document :=
  updatedDocs.filter (fun doc => truthy doc.content && !truthy doc.plan_text)

/-- The vector records `saveEmbeddingsToDB` inserts, in order, when every
database write succeeds: one per plan, then one per entry. -/
def saveEmbeddingsRecords (updatedDocs : List Document) (userId : String) :
    List VectorRecord :=
  (planDocs updatedDocs).map (planRecord userId)
    ++ (entryDocs updatedDocs).map (entryRecord userId)

/-- One database write issued by `saveEmbeddingsToDB`: either an
`is_embedded` flag update on a source table, or an `ai_docs` insert. -/
inductive WriteOp where
  | updateFlag (table : String) (id : String)
  | insertDoc (rec : VectorRecord)

/-- The (flag update, insert) pair of writes for one plan. -/
def planPair (userId : String) (plan : Document) : WriteOp × WriteOp :=
  (WriteOp.updateFlag "plans" plan.id, WriteOp.insertDoc (planRecord userId plan))

/-- The (flag update, insert) pair of writes for one entry. -/
def entryPair (userId : String) (entry : Document) : WriteOp × WriteOp :=
  (WriteOp.updateFlag "entries" entry.id, WriteOp.insertDoc (entryRecord userId entry))

/-- All write pairs of one `saveEmbeddingsToDB` call, in issue order:
the plans loop first, then the entries loop. -/
def savePairs (updatedDocs : List Document) (userId : String) :
    List (WriteOp × WriteOp) :=
  (planDocs updatedDocs).map (planPair userId)
    ++ (entryDocs updatedDocs).map (entryPair userId)

/-- Every write `saveEmbeddingsToDB` would issue if nothing failed. -/
def plannedWrites (updatedDocs : List Document) (userId : String) : List WriteOp :=
  (savePairs updatedDocs userId).flatMap (fun p => [p.1, p.2])

/-- Execution of the write loops of `saveEmbeddingsToDB` against an oracle
`ok` deciding which writes succeed: each pair issues the flag update, throws
on its error, then issues the insert, throwing on its error; a throw aborts
every remaining write. Returns the successfully committed writes and whether
the call completed. -/
def runPairs (ok : WriteOp → Bool) : List (WriteOp × WriteOp) → List WriteOp × Bool
  | [] => ([], true)
  | (u, i) :: rest =>
      if ok u then
        if ok i then
          let r := runPairs ok rest
          (u :: i :: r.1, r.2)
        else ([u], false)
      else ([], false)

/-- The writes committed by one `saveEmbeddingsToDB` call, and whether it
completed without throwing. -/
def saveEmbeddingsRun (ok : WriteOp → Bool) (updatedDocs : List Document)
    (userId : String) : List WriteOp × Bool :=
  runPairs ok (savePairs updatedDocs userId)

/-- Checks that in a write trace every `ai_docs` insert is preceded by an
`is_embedded` flag update of its source document (`flagged` accumulates the
ids already updated). -/
def flagBeforeInsert (flagged : List String) : List WriteOp → Bool
  | [] => true
  | WriteOp.updateFlag _ id :: rest => flagBeforeInsert (id :: flagged) rest
  | WriteOp.insertDoc rec :: rest =>
      flagged.contains rec.metadata.source_id && flagBeforeInsert flagged rest

/-- A well-formed write pair: an `is_embedded` flag update on the very
document whose VectorRecord the second component inserts. -/
def goodPair (p : WriteOp × WriteOp) : Prop :=
  ∃ tbl rec, p.1 = WriteOp.updateFlag tbl rec.metadata.source_id ∧
    p.2 = WriteOp.insertDoc rec

/-! ## Soft-fail lookups -/

/-- Result of the `app_users` goal query (`.single()`): an error, no row, or
a row whose `goal` column may be `null`. -/
inductive GoalResult where
  | err (e : String)
  | ok (data : Option (Option String))
  deriving DecidableEq, Repr

/-- Model of `fetchUserGoal`: on error or missing row the goal degrades to `""`
(logged as a warning), otherwise `data.goal || ''`. -/
def fetchUserGoal (res : GoalResult) : String :=
  match res with
  | .err _ => ""
  | .ok none => ""
  | .ok (some g) => jsOr g ""

/-- A retrieved context row (`RagContextDoc`). -/
structure RagContextDoc where
  content : String
  created_at : Option String
  timestamp : Option String
  deriving DecidableEq, Repr

/-- Result of the `match_vectors` nearest-neighbor RPC: an error, or rows
that may be `null`. -/
inductive RpcResult where
  | err (e : String)
  | ok (docs : Option (List RagContextDoc))
  deriving DecidableEq, Repr

/-- Model of `fetchRagContext`: delegates to the `match_vectors` RPC; on error
returns `[]` (the error is only logged), and `null` rows also become `[]`
(`return docs || []`). Total: it never fails. -/
def fetchRagContext (rpc : String → List HFValue → Nat → RpcResult)
    (userId : String) (queryEmbedding : List HFValue) (topK : Nat) :
    List RagContextDoc :=
  match rpc userId queryEmbedding topK with
  | .err _ => []
  | .ok docs => docs.getD []

/-! ## Completion call (`ragCall`) -/

/-- One typed content segment of a completion message; `text` is optional
(non-text segments usually lack it). -/
structure Segment where
  type : String
  text : Option String
  deriving DecidableEq, Repr

/-- A choice's `message` object. -/
structure Message where
  content : Option (List Segment)
  deriving DecidableEq, Repr

/-- One element of `choices`. -/
structure Choice where
  message : Option Message
  deriving DecidableEq, Repr

/-- The JSON body of a successful completion response. -/
structure CompletionData where
  choices : Option (List Choice)
  deriving DecidableEq, Repr

/-- Model of `data.choices?.[0]?.message?.content || []`: the first choice's message
content, defaulting to the empty list whenever any link is missing. -/
def messageArray (data : CompletionData) : List Segment :=
  match data.choices with
  | none => []
  | some cs =>
      match cs.head? with
      | none => []
      | some c =>
          match c.message with
          | none => []
          | some m => m.content.getD []

/-- The per-segment string of the flattening map:
`item.type === 'text' ? item.text : ''` (a missing `text` renders as `""`
in `Array.prototype.join`). -/
def segText (item : Segment) : String :=
  if item.type = "text" then item.text.getD "" else ""

/-- The text `ragCall` extracts from a completion response:
`messageArray.map(item => item.type === 'text' ? item.text : '').join('\n')`. -/
def extractResultText (data : CompletionData) : String :=
  joinSep "\n" ((messageArray data).map segText)

/-- The error message thrown on a non-success completion status:
`new Error(\x7bOpenRouter API error: ${response.status} ${errText}\x7d)`. -/
def completionErrorMsg (status : Nat) (errText : String) : String :=
  "OpenRouter API error: " ++ toString status ++ " " ++ errText

/-- The completion endpoint's reply: HTTP status plus either the error body
text or the parsed JSON body. -/
structure HttpResponse where
  ok : Bool
  status : Nat
  errText : String
  json : CompletionData

/-- The external world one `ragCall` runs against: the environment key and
the replies of the goal lookup, the embedding API, the vector search, and
the completion endpoint (a function of the request prompt). -/
structure RagEnv where
  openRouterKey : Option String
  goal : GoalResult
  embedApi : String → HFValue
  rpc : String → List HFValue → Nat → RpcResult
  completion : String → HttpResponse

/-- One rendered context string:
`${c.content}\nDate: ${c.metadata?.created_at || c.metadata?.timestamp || 'unknown'}`. -/
def contextString (c : RagContextDoc) : String :=
  c.content ++ "\nDate: " ++ jsOr c.created_at (jsOr c.timestamp "unknown")

/-- The prompt `ragCall` sends to the completion endpoint:
`promptTemplate(contextStrings, goal, input)` where the query embedding is
the (successful) embedding of `input`. -/
def ragPrompt (env : RagEnv)
    (promptTemplate : List String → String → String → String)
    (userId input : String) (topK : Nat) : String :=
  let goal := fetchUserGoal env.goal
  let queryEmbedding := (embedQuery env.embedApi input).toOption.getD []
  let contextDocs := fetchRagContext env.rpc userId queryEmbedding topK
  promptTemplate (contextDocs.map contextString) goal input

/-- Model of `ragCall`: check the OpenRouter key, resolve the user goal (soft-fail),
embed the input (hard-fail), fetch context (soft-fail), build the prompt,
call the completion endpoint (hard-fail on a non-success status), and
extract the answer text. -/
def ragCall (env : RagEnv)
    (promptTemplate : List String → String → String → String)
    (userId input : String) (topK : Nat) : Except String String :=
  match env.openRouterKey with
  | none => .error "OPEN_ROUTER_API_KEY is not set"
  | some _ =>
      match embedQuery env.embedApi input with
      | .error e => .error e
      | .ok _ =>
          let response := env.completion (ragPrompt env promptTemplate userId input topK)
          if response.ok then
            .ok (extractResultText response.json)
          else
            .error (completionErrorMsg response.status response.errText)

/-! ## Concrete fixtures -/

/-- A document with no text-bearing fields, no plan text and no content. -/
def blankDoc : Document :=
  { id := "d1", is_embedded := false, title := none, name := none,
    description := none, content := none, notes := none, plan_text := none,
    type := none, timestamp := none, generated_at := none,
    embedding := some [HFValue.num 1, HFValue.num 2], extra := [] }

/-- A document whose only text-bearing field is a whitespace-only title. -/
def wsDoc : Document := { blankDoc with id := "d2", title := some " " }

/-- A plan document carrying `plan_text`. -/
def pDoc : Document :=
  { blankDoc with
    id := "p1"
    plan_text := some "do squats"
    generated_at := some "2024-01-01" }

/-- The content segments of the spec's completion-response scenario:
a text segment, an image segment, a text segment. -/
def exampleSegments : List Segment :=
  [{ type := "text", text := some "Plan A" },
   { type := "image", text := none },
   { type := "text", text := some "Plan B" }]

/-- The completion-response body of the spec's scenario. -/
def exampleCompletion : CompletionData :=
  { choices := some [{ message := some { content := some exampleSegments } }] }

/-- A constant embedding API returning a flat two-number vector. -/
def cApi : String → HFValue := fun _ => HFValue.arr [HFValue.num 1, HFValue.num 2]

/-- A vector search whose rows are `null`. -/
def cRpc : String → List HFValue → Nat → RpcResult := fun _ _ _ => RpcResult.ok none

/-- A prompt template that ignores context and goal. -/
def cTemplate : List String → String → String → String := fun _ _ input => input

/-- A fully successful environment replying with the scenario completion body. -/
def cEnv : RagEnv :=
  { openRouterKey := some "k", goal := GoalResult.ok none, embedApi := cApi,
    rpc := cRpc,
    completion := fun _ =>
      { ok := true, status := 200, errText := "", json := exampleCompletion } }

/-- An environment whose completion endpoint replies HTTP 429. -/
def cFailEnv : RagEnv :=
  { cEnv with completion := fun _ =>
      { ok := false, status := 429, errText := "rate limited",
        json := { choices := none } } }

/-- An environment whose completion endpoint replies success with a body
that has no `choices`. -/
def cEmptyEnv : RagEnv :=
  { cEnv with completion := fun _ =>
      { ok := true, status := 200, errText := "", json := { choices := none } } }

/-- The output of `updateEmbeddings` on `[blankDoc]` under `cApi`. -/
def cUpdated : List Document :=
  [{ blankDoc with
      embedding := some [HFValue.num 1, HFValue.num 2]
      is_embedded := true }]

/-! ## Helper lemmas -/

theorem jsOr_of_falsy {a : Option String} (b : String) (h : truthy a = false) :
    jsOr a b = b := by
  cases a with
  | none => rfl
  | some s =>
      simp [truthy] at h
      simp [jsOr, h]

theorem normalizeResponse_not_array {v : HFValue} (h : isArr v = false) :
    normalizeResponse v = .error "HF API response is not an array" := by
  cases v <;> simp_all [isArr, normalizeResponse]

theorem normalizeResponse_error_msg {v : HFValue} {m : String}
    (h : normalizeResponse v = .error m) :
    m = "HF API response is not an array" := by
  cases v with
  | num x => simpa [normalizeResponse] using h.symm
  | other => simpa [normalizeResponse] using h.symm
  | arr l =>
      cases l with
      | nil => simp [normalizeResponse] at h
      | cons hd tl => cases hd <;> simp [normalizeResponse] at h

theorem normalizeResponse_of_array {v : HFValue} (h : isArr v = true) :
    ∃ e, normalizeResponse v = .ok e := by
  cases v with
  | num x => simp [isArr] at h
  | other => simp [isArr] at h
  | arr l =>
      cases l with
      | nil => exact ⟨[], rfl⟩
      | cons hd tl => cases hd <;> exact ⟨_, rfl⟩

theorem flat1_map_arr (ls : List (List HFValue)) :
    flat1 (ls.map HFValue.arr) = ls.flatten := by
  induction ls with
  | nil => rfl
  | cons l rest ih => simp [flat1, ih]

theorem embedQuery_eq (api : String → HFValue) (doc : String) :
    embedQuery api doc = normalizeResponse (api doc) := by
  cases h : normalizeResponse (api doc) with
  | error e =>
      unfold embedQuery embedDocuments
      rw [h]
      rfl
  | ok e =>
      unfold embedQuery embedDocuments
      rw [h]
      rfl

theorem embedDocuments_ok_length {api : String → HFValue} {ts : List String}
    {es : List (List HFValue)} (h : embedDocuments api ts = .ok es) :
    es.length = ts.length := by
  induction ts generalizing es with
  | nil =>
      unfold embedDocuments at h
      cases h
      rfl
  | cons t ts ih =>
      unfold embedDocuments at h
      split at h
      · exact absurd h (by simp)
      · split at h
        · exact absurd h (by simp)
        · rename_i es2 h2
          cases h
          simp [ih h2]

theorem embedDocuments_ok_get {api : String → HFValue} {ts : List String}
    {es : List (List HFValue)} (h : embedDocuments api ts = .ok es) :
    ∀ i (h1 : i < ts.length) (h2 : i < es.length),
      normalizeResponse (api ts[i]) = .ok es[i] := by
  induction ts generalizing es with
  | nil =>
      intro i h1 h2
      exact absurd h1 (by simp)
  | cons t ts ih =>
      unfold embedDocuments at h
      split at h
      · exact absurd h (by simp)
      · rename_i e he
        split at h
        · exact absurd h (by simp)
        · rename_i es2 h2
          cases h
          intro i hi1 hi2
          cases i with
          | zero => simpa using he
          | succ n => exact ih h2 n (by simpa using hi1) (by simpa using hi2)

theorem embedDocuments_error_of_mem {api : String → HFValue} {ts : List String}
    {d : String} (hd : d ∈ ts) (hv : isArr (api d) = false) :
    embedDocuments api ts = .error "HF API response is not an array" := by
  induction ts with
  | nil => cases hd
  | cons t ts ih =>
      rcases List.mem_cons.mp hd with h | h
      · subst h
        unfold embedDocuments
        rw [normalizeResponse_not_array hv]
      · unfold embedDocuments
        cases he : normalizeResponse (api t) with
        | error e =>
            have hmsg : e = "HF API response is not an array" :=
              normalizeResponse_error_msg he
            subst hmsg
            rfl
        | ok e => rw [ih h]

theorem ragCall_reduce {env : RagEnv} {T : List String → String → String → String}
    {userId input : String} {topK : Nat} {key : String} {emb : List HFValue}
    (hk : env.openRouterKey = some key)
    (he : embedQuery env.embedApi input = .ok emb) :
    ragCall env T userId input topK =
      (if (env.completion (ragPrompt env T userId input topK)).ok then
        .ok (extractResultText (env.completion (ragPrompt env T userId input topK)).json)
      else
        .error (completionErrorMsg (env.completion (ragPrompt env T userId input topK)).status
          (env.completion (ragPrompt env T userId input topK)).errText)) := by
  unfold ragCall
  rw [hk, he]

theorem extractText_def (doc : Document) :
    extractText doc =
      (if joinSep " " (([jsOr doc.title (jsOr doc.name ""), jsOr doc.description "",
          jsOr doc.content (jsOr doc.notes "")]).filter (fun s => s ≠ "")) = ""
       then "No content"
       else joinSep " " (([jsOr doc.title (jsOr doc.name ""), jsOr doc.description "",
          jsOr doc.content (jsOr doc.notes "")]).filter (fun s => s ≠ ""))) := rfl

/-! ## Claim theorems -/

/-- C6 (confirmed): `fetchContext` is a total function into plain lists —
it never throws — and for every userId, query vector and topK, when the
nearest-neighbor search reports an error or returns no rows, it returns the
empty list, so the pipeline continues with no context. -/
theorem fetchContext_soft_fail (rpc : String → List HFValue → Nat → RpcResult)
    (userId : String) (queryEmbedding : List HFValue) (topK : Nat) :
    (∀ e, rpc userId queryEmbedding topK = .err e →
      fetchRagContext rpc userId queryEmbedding topK = []) ∧
    (rpc userId queryEmbedding topK = .ok none →
      fetchRagContext rpc userId queryEmbedding topK = []) := by
  constructor
  · intro e he
    simp [fetchRagContext, he]
  · intro h
    simp [fetchRagContext, h]

/-- Witness for C6 at a concrete search returning null rows. -/
theorem fetchContext_soft_fail_witness :
    fetchRagContext cRpc "u" [] 5 = [] :=
  (fetchContext_soft_fail cRpc "u" [] 5).2 rfl

/-- C4 (confirmed): for every embedding-API response that is a list, if its
first element is itself a list the output is the flat array equal to the
concatenation of the inner arrays in order, otherwise the response is used
unchanged; a non-list response fails with the shape error, and a single
failing response aborts the whole `embedDocuments` batch with no partial
results. -/
theorem embedDocuments_shape (api : String → HFValue) :
    (∀ ls : List (List HFValue),
      normalizeResponse (HFValue.arr (ls.map HFValue.arr)) = .ok ls.flatten) ∧
    (normalizeResponse (HFValue.arr []) = .ok []) ∧
    (∀ v rest, isArr v = false →
      normalizeResponse (HFValue.arr (v :: rest)) = .ok (v :: rest)) ∧
    (∀ v, isArr v = false →
      normalizeResponse v = .error "HF API response is not an array") ∧
    (∀ doc, embedQuery api doc = normalizeResponse (api doc)) ∧
    (∀ ts d, d ∈ ts → isArr (api d) = false →
      embedDocuments api ts = .error "HF API response is not an array") := by
  refine ⟨?_, rfl, ?_, ?_, ?_, ?_⟩
  · intro ls
    cases ls with
    | nil => rfl
    | cons l rest =>
        show Except.ok (flat1 ((l :: rest).map HFValue.arr)) = _
        rw [flat1_map_arr]
  · intro v rest hv
    cases v with
    | num x => rfl
    | arr l => simp [isArr] at hv
    | other => rfl
  · intro v hv
    exact normalizeResponse_not_array hv
  · intro doc
    exact embedQuery_eq api doc
  · intro ts d hd hv
    exact embedDocuments_error_of_mem hd hv

/-- Witness for C4: a numeric (non-list) response rejects the whole batch. -/
theorem embedDocuments_shape_witness :
    embedDocuments (fun _ => HFValue.num 0) ["a"] =
      .error "HF API response is not an array" :=
  (embedDocuments_shape (fun _ => HFValue.num 0)).2.2.2.2.2 ["a"] "a"
    (List.mem_singleton.mpr rfl) rfl

/-- C3 counterexample: a whitespace-only title is truthy in JS, so the text
handed to the embedder is the whitespace string " " — empty after trimming —
and the placeholder "No content" is NOT substituted, contradicting the claim
that substitution happens whenever the result trims to empty. -/
theorem extractText_whitespace_cex :
    wsDoc.title = some " " ∧
    " ".toList.all Char.isWhitespace = true ∧
    extractText wsDoc = " " ∧
    (" " : String) ≠ "No content" :=
  ⟨rfl, by decide, rfl, by decide⟩

/-- C3 (corrected): the text handed to the embedder is the space-separated
join, in priority order, of (title or name), description and (content or
notes) with empty segments omitted, and the placeholder "No content" is
substituted exactly when the joined string is literally empty — no trimming
is applied, so whitespace-only fields pass through unchanged — hence the
embedding call never receives the empty string (though it may receive
whitespace-only text). -/
theorem extractText_priority_join (doc : Document) :
    extractText doc ≠ "" ∧
    extractText doc =
      (if joinSep " " (([jsOr doc.title (jsOr doc.name ""), jsOr doc.description "",
          jsOr doc.content (jsOr doc.notes "")]).filter (fun s => s ≠ "")) = ""
       then "No content"
       else joinSep " " (([jsOr doc.title (jsOr doc.name ""), jsOr doc.description "",
          jsOr doc.content (jsOr doc.notes "")]).filter (fun s => s ≠ ""))) ∧
    (truthy doc.title = false → truthy doc.name = false →
     truthy doc.description = false → truthy doc.content = false →
     truthy doc.notes = false → extractText doc = "No content") := by
  refine ⟨?_, extractText_def doc, ?_⟩
  · rw [extractText_def doc]
    split_ifs with h
    · decide
    · exact h
  · intro h1 h2 h3 h4 h5
    rw [extractText_def doc, jsOr_of_falsy _ h1, jsOr_of_falsy _ h2,
        jsOr_of_falsy _ h3, jsOr_of_falsy _ h4, jsOr_of_falsy _ h5]
    decide

/-- Witness for C3: a document with no text-bearing fields extracts
"No content". -/
theorem extractText_priority_join_witness :
    extractText blankDoc = "No content" :=
  (extractText_priority_join blankDoc).2.2 rfl rfl rfl rfl rfl

/-- C1 counterexample: on the spec's scenario response, `ragCall` returns
"Plan A\n\nPlan B" — the image segment contributes an empty line between the
two text segments — not "Plan A\nPlan B" as the claim states. -/
theorem ragCall_segment_join_cex :
    ragCall cEnv cTemplate "u" "hi" 5 = .ok "Plan A\n\nPlan B" ∧
    "Plan A\n\nPlan B" ≠ "Plan A\nPlan B" :=
  ⟨rfl, by decide⟩

/-- C1 (corrected): the text `ragCall` returns is the newline-join over ALL
segments of the first choice's message content, where a text-typed segment
contributes its text and a segment of any other type contributes the empty
string — so non-text segments still contribute a separator; the scenario
content list yields "Plan A\n\nPlan B". -/
theorem ragCall_segment_join (env : RagEnv)
    (T : List String → String → String → String) (userId input : String)
    (topK : Nat) (key : String) (emb : List HFValue) (l : List Segment)
    (hk : env.openRouterKey = some key)
    (he : embedQuery env.embedApi input = .ok emb)
    (hok : (env.completion (ragPrompt env T userId input topK)).ok = true)
    (hl : messageArray (env.completion (ragPrompt env T userId input topK)).json = l) :
    ragCall env T userId input topK =
      .ok (joinSep "\n" (l.map fun item =>
        if item.type = "text" then item.text.getD "" else "")) := by
  rw [ragCall_reduce hk he]
  simp [hok, extractResultText, hl, segText]
  rfl

/-- Witness for C1 at the concrete scenario environment. -/
theorem ragCall_segment_join_witness :
    ragCall cEnv cTemplate "u" "hi" 5 =
      .ok (joinSep "\n" (exampleSegments.map fun item =>
        if item.type = "text" then item.text.getD "" else "")) :=
  ragCall_segment_join cEnv cTemplate "u" "hi" 5 "k"
    [HFValue.num 1, HFValue.num 2] exampleSegments rfl rfl rfl rfl

/-- C10 (confirmed): when the completion endpoint returns a success status
but the body lacks `choices`, a first choice, the first choice's message, or
its content — including an empty object and an empty choices list — the
content defaults to the empty list and `ragCall` returns the empty
string. -/
theorem ragCall_missing_content_empty (env : RagEnv)
    (T : List String → String → String → String) (userId input : String)
    (topK : Nat) (key : String) (emb : List HFValue)
    (hk : env.openRouterKey = some key)
    (he : embedQuery env.embedApi input = .ok emb)
    (hok : (env.completion (ragPrompt env T userId input topK)).ok = true)
    (hempty :
      (env.completion (ragPrompt env T userId input topK)).json.choices = none ∨
      (env.completion (ragPrompt env T userId input topK)).json.choices = some [] ∨
      (∃ c cs, (env.completion (ragPrompt env T userId input topK)).json.choices
          = some (c :: cs) ∧
        (c.message = none ∨ ∃ m, c.message = some m ∧ m.content = none))) :
    ragCall env T userId input topK = .ok "" := by
  rw [ragCall_reduce hk he]
  have harr : messageArray (env.completion (ragPrompt env T userId input topK)).json
      = [] := by
    rcases hempty with h | h | ⟨c, cs, hc, hm | ⟨m, hm, hcont⟩⟩
    · simp [messageArray, h]
    · simp [messageArray, h]
    · simp [messageArray, hc, hm]
    · simp [messageArray, hc, hm, hcont]
  simp [hok, extractResultText, harr, joinSep]

/-- Witness for C10 at a success response whose body has no choices. -/
theorem ragCall_missing_content_empty_witness :
    ragCall cEmptyEnv cTemplate "u" "hi" 5 = .ok "" :=
  ragCall_missing_content_empty cEmptyEnv cTemplate "u" "hi" 5 "k"
    [HFValue.num 1, HFValue.num 2] rfl rfl rfl (Or.inl rfl)

/-- C8 (confirmed): a non-success completion status makes `ragCall` fail
with an error carrying the HTTP status code and the response body; for a 429
status the error message contains the substring "429". -/
theorem ragCall_http_error (env : RagEnv)
    (T : List String → String → String → String) (userId input : String)
    (topK : Nat) (key : String) (emb : List HFValue)
    (hk : env.openRouterKey = some key)
    (he : embedQuery env.embedApi input = .ok emb)
    (hfail : (env.completion (ragPrompt env T userId input topK)).ok = false) :
    ragCall env T userId input topK =
      .error (completionErrorMsg
        (env.completion (ragPrompt env T userId input topK)).status
        (env.completion (ragPrompt env T userId input topK)).errText) ∧
    ((env.completion (ragPrompt env T userId input topK)).status = 429 →
      ∃ pre post,
        completionErrorMsg
          (env.completion (ragPrompt env T userId input topK)).status
          (env.completion (ragPrompt env T userId input topK)).errText
          = pre ++ "429" ++ post) := by
  constructor
  · rw [ragCall_reduce hk he]
    simp [hfail]
  · intro h429
    refine ⟨"OpenRouter API error: ",
      " " ++ (env.completion (ragPrompt env T userId input topK)).errText, ?_⟩
    simp only [completionErrorMsg, h429]
    rw [show toString (429 : Nat) = "429" by decide]
    exact String.append_assoc _ " " _

/-- Witness for C8 at a concrete 429 response. -/
theorem ragCall_http_error_witness :
    ragCall cFailEnv cTemplate "u" "hi" 5 =
      .error (completionErrorMsg 429 "rate limited") ∧
    ∃ pre post, completionErrorMsg 429 "rate limited" = pre ++ "429" ++ post :=
  ⟨(ragCall_http_error cFailEnv cTemplate "u" "hi" 5 "k"
      [HFValue.num 1, HFValue.num 2] rfl rfl rfl).1,
   (ragCall_http_error cFailEnv cTemplate "u" "hi" 5 "k"
      [HFValue.num 1, HFValue.num 2] rfl rfl rfl).2 rfl⟩

/-- C9 (confirmed): a failed user-goal lookup degrades to the empty string
and is never propagated — `ragCall` behaves exactly as with an absent goal
row — while a failure of the query-embedding step and a completion-call
failure both propagate to the caller. -/
theorem ragCall_goal_soft_embed_hard (env : RagEnv)
    (T : List String → String → String → String) (userId input : String)
    (topK : Nat) :
    (∀ e, fetchUserGoal (.err e) = "" ∧
      ragCall { env with goal := .err e } T userId input topK =
        ragCall { env with goal := .ok none } T userId input topK) ∧
    (∀ key m, env.openRouterKey = some key →
      normalizeResponse (env.embedApi input) = .error m →
      ragCall env T userId input topK = .error m) ∧
    (∀ key emb, env.openRouterKey = some key →
      embedQuery env.embedApi input = .ok emb →
      (env.completion (ragPrompt env T userId input topK)).ok = false →
      ragCall env T userId input topK =
        .error (completionErrorMsg
          (env.completion (ragPrompt env T userId input topK)).status
          (env.completion (ragPrompt env T userId input topK)).errText)) := by
  refine ⟨?_, ?_, ?_⟩
  · intro e
    exact ⟨rfl, rfl⟩
  · intro key m hk hm
    unfold ragCall
    rw [hk, embedQuery_eq, hm]
  · intro key emb hk he hfail
    rw [ragCall_reduce hk he]
    simp [hfail]

/-- Witness for C9: a concrete failing goal lookup leaves the call result
identical to an absent goal row. -/
theorem ragCall_goal_soft_embed_hard_witness :
    ragCall { cEnv with goal := .err "boom" } cTemplate "u" "hi" 5 =
      ragCall { cEnv with goal := .ok none } cTemplate "u" "hi" 5 :=
  ((ragCall_goal_soft_embed_hard cEnv cTemplate "u" "hi" 5).1 "boom").2

/-- C2 counterexample: a document with neither `plan_text` nor truthy
`content` lands in neither partition and gets no VectorRecord, so the claim
that every input document yields exactly one record fails. -/
theorem saveEmbeddings_skips_doc_cex :
    saveEmbeddingsRecords [blankDoc] "u" = [] ∧ [blankDoc].length = 1 :=
  ⟨rfl, rfl⟩

/-- C2 (corrected): `saveEmbeddings` partitions its input into plans (truthy
`plan_text`) and entries (truthy `content` and no truthy `plan_text`, not
all non-plan documents); exactly one VectorRecord is inserted per plan —
type "plan", metadata {source_id, generated_at} — and one per entry — type
the entry's own subtype, metadata {source_id, entry_type, timestamp}; every
inserted record stems from such a document, and a document with neither
truthy `plan_text` nor truthy `content` receives no VectorRecord. -/
theorem saveEmbeddings_partition (updatedDocs : List Document) (userId : String) :
    (saveEmbeddingsRecords updatedDocs userId).length
      = (planDocs updatedDocs).length + (entryDocs updatedDocs).length ∧
    (∀ d ∈ updatedDocs, truthy d.plan_text = true →
      planRecord userId d ∈ saveEmbeddingsRecords updatedDocs userId ∧
      (planRecord userId d).type = some "plan" ∧
      (planRecord userId d).metadata = VMeta.planMeta d.id d.generated_at) ∧
    (∀ d ∈ updatedDocs, truthy d.content = true → truthy d.plan_text = false →
      entryRecord userId d ∈ saveEmbeddingsRecords updatedDocs userId ∧
      (entryRecord userId d).type = d.type ∧
      (entryRecord userId d).metadata = VMeta.entryMeta d.id d.type d.timestamp) ∧
    (∀ rec ∈ saveEmbeddingsRecords updatedDocs userId, ∃ d, d ∈ updatedDocs ∧
      ((truthy d.plan_text = true ∧ rec = planRecord userId d) ∨
       (truthy d.content = true ∧ truthy d.plan_text = false ∧
        rec = entryRecord userId d))) := by
  refine ⟨?_, ?_, ?_, ?_⟩
  · simp [saveEmbeddingsRecords]
  · intro d hd hp
    refine ⟨?_, rfl, rfl⟩
    exact List.mem_append_left _
      (List.mem_map_of_mem _ (List.mem_filter.mpr ⟨hd, hp⟩))
  · intro d hd hc hp
    refine ⟨?_, rfl, rfl⟩
    exact List.mem_append_right _
      (List.mem_map_of_mem _ (List.mem_filter.mpr ⟨hd, by simp [hc, hp]⟩))
  · intro rec hrec
    rcases List.mem_append.mp hrec with h | h
    · rcases List.mem_map.mp h with ⟨d, hdf, rfl⟩
      rcases List.mem_filter.mp hdf with ⟨hd, hp⟩
      exact ⟨d, hd, Or.inl ⟨hp, rfl⟩⟩
    · rcases List.mem_map.mp h with ⟨d, hdf, rfl⟩
      rcases List.mem_filter.mp hdf with ⟨hd, hcp⟩
      rw [Bool.and_eq_true] at hcp
      exact ⟨d, hd, Or.inr ⟨hcp.1, by simpa using hcp.2, rfl⟩⟩

/-- Witness for C2: the record of a concrete plan document is inserted. -/
theorem saveEmbeddings_partition_witness :
    planRecord "u" pDoc ∈ saveEmbeddingsRecords [pDoc] "u" :=
  ((saveEmbeddings_partition [pDoc] "u").2.1 pDoc
    (List.mem_singleton.mpr rfl) rfl).1

/-- C5 (confirmed): on success `updateEmbeddings` returns a list of the same
length in the same order, where output i equals input i with the i-th batch
embedding attached and `is_embedded` forced true and every other field
unchanged; if the embedding call fails, the whole operation fails and no
document is updated. -/
theorem updateEmbeddings_frame (api : String → HFValue) (docs : List Document) :
    (∀ out, updateEmbeddings api docs = .ok out →
      out.length = docs.length ∧
      ∀ i (h1 : i < docs.length) (h2 : i < out.length),
        ∃ e, normalizeResponse (api (extractText docs[i])) = .ok e ∧
          out[i] = { docs[i] with embedding := some e, is_embedded := true }) ∧
    (∀ m, embedDocuments api (docs.map extractText) = .error m →
      updateEmbeddings api docs = .error m) := by
  constructor
  · intro out hout
    unfold updateEmbeddings at hout
    split at hout
    · exact absurd hout (by simp)
    · rename_i embeddings hemb
      cases hout
      have hlen : embeddings.length = docs.length := by
        simpa using embedDocuments_ok_length hemb
      constructor
      · simp [hlen]
      · intro i h1 h2
        have hi : i < embeddings.length := by omega
        refine ⟨embeddings[i], ?_, ?_⟩
        · have := embedDocuments_ok_get hemb i (by simpa using h1) hi
          simpa using this
        · simp
  · intro m hm
    unfold updateEmbeddings
    rw [hm]

/-- Witness for C5 on a one-document batch against the constant embedding
API. -/
theorem updateEmbeddings_frame_witness :
    cUpdated.length = [blankDoc].length ∧
    ∃ e, normalizeResponse (cApi (extractText ([blankDoc])[0])) = .ok e ∧
      cUpdated[0] = { ([blankDoc])[0] with
        embedding := some e
        is_embedded := true } := by
  exact ⟨((updateEmbeddings_frame cApi [blankDoc]).1 cUpdated rfl).1,
    ((updateEmbeddings_frame cApi [blankDoc]).1 cUpdated rfl).2 0
      (by decide) (by decide)⟩

theorem runPairs_fst (ok : WriteOp → Bool) (ps : List (WriteOp × WriteOp)) :
    (runPairs ok ps).1 = (ps.flatMap fun p => [p.1, p.2]).takeWhile ok := by
  induction ps with
  | nil => rfl
  | cons p rest ih =>
      obtain ⟨u, i⟩ := p
      by_cases hu : ok u
      · by_cases hi2 : ok i
        · simp [runPairs, hu, hi2, List.takeWhile_cons, ih]
        · simp [runPairs, hu, hi2, List.takeWhile_cons]
      · simp [runPairs, hu, List.takeWhile_cons]

theorem flagBeforeInsert_takeWhile (ok : WriteOp → Bool)
    (ps : List (WriteOp × WriteOp)) (hps : ∀ p ∈ ps, goodPair p) :
    ∀ flagged, flagBeforeInsert flagged
      ((ps.flatMap fun p => [p.1, p.2]).takeWhile ok) = true := by
  induction ps with
  | nil => intro flagged; rfl
  | cons p rest ih =>
      intro flagged
      obtain ⟨tbl, rec, h1, h2⟩ := hps p (List.mem_cons_self p rest)
      obtain ⟨u, i⟩ := p
      simp only at h1 h2
      subst h1
      subst h2
      by_cases hu : ok (WriteOp.updateFlag tbl rec.metadata.source_id)
      · by_cases hi2 : ok (WriteOp.insertDoc rec)
        · have hrest := ih (fun q hq => hps q (List.mem_cons_of_mem _ hq))
            (rec.metadata.source_id :: flagged)
          simp [List.takeWhile_cons, hu, hi2, flagBeforeInsert, hrest]
        · simp [List.takeWhile_cons, hu, hi2, flagBeforeInsert]
      · simp [List.takeWhile_cons, hu, flagBeforeInsert]

theorem savePairs_good (updatedDocs : List Document) (userId : String) :
    ∀ p ∈ savePairs updatedDocs userId, goodPair p := by
  intro p hp
  rcases List.mem_append.mp hp with h | h
  · rcases List.mem_map.mp h with ⟨d, _, rfl⟩
    exact ⟨"plans", planRecord userId d, rfl, rfl⟩
  · rcases List.mem_map.mp h with ⟨d, _, rfl⟩
    exact ⟨"entries", entryRecord userId d, rfl, rfl⟩

/-- C7 (confirmed): in the committed write sequence of `saveEmbeddings`,
every VectorRecord insert is preceded by the `is_embedded` flag update of
its own source document; the committed writes are exactly the longest
all-successful prefix of the planned writes, so the first failing write is
not committed and aborts all remaining writes, while writes committed for
earlier documents are retained (not rolled back). -/
theorem saveEmbeddings_write_order (ok : WriteOp → Bool)
    (updatedDocs : List Document) (userId : String) :
    (saveEmbeddingsRun ok updatedDocs userId).1
      = (plannedWrites updatedDocs userId).takeWhile ok ∧
    (∃ rest, plannedWrites updatedDocs userId
      = (saveEmbeddingsRun ok updatedDocs userId).1 ++ rest) ∧
    flagBeforeInsert [] (saveEmbeddingsRun ok updatedDocs userId).1 = true := by
  have h1 : (saveEmbeddingsRun ok updatedDocs userId).1
      = (plannedWrites updatedDocs userId).takeWhile ok :=
    runPairs_fst ok (savePairs updatedDocs userId)
  refine ⟨h1, ⟨(plannedWrites updatedDocs userId).dropWhile ok, ?_⟩, ?_⟩
  · rw [h1, List.takeWhile_append_dropWhile]
  · rw [h1]
    exact flagBeforeInsert_takeWhile ok _ (savePairs_good updatedDocs userId) []

end FitnessHelper
